import Mathlib

set_option autoImplicit false
set_option maxRecDepth 100000

/-!
Verification of the windowed CSV viewer (`csv_reader.py`): a shallow
embedding of its data-management core — the chunked loader thread, the
windowed dataframe model, the debounced scroll mapper and the search
routine — together with theorems settling the specification claims.
-/

/-- `VISIBLE_ROWS` from the source: the fixed visible window capacity `W`. -/
def VISIBLE_ROWS : Nat := 100

/-- `CHUNK_SIZE` from the source: the loader batch-size hint. -/
def CHUNK_SIZE : Nat := 100000

/-- A cell value of the dataset.  A `float`/`np.float64` is modelled by the
rational it denotes; integers, strings and missing (`NaN`) values are the
other cases produced by `pd.read_csv`. -/
inductive Value where
  | missing
  | intV (i : Int)
  | floatV (q : Rat)
  | textV (s : String)
deriving DecidableEq

/-- A pandas dataframe: an ordered column schema and a list of rows. -/
structure DataFrame where
  columns : List String
  rows : List (List Value)
deriving DecidableEq

/-- `pd.DataFrame()`: the empty dataframe with no columns and no rows. -/
def DataFrame.emptyDF : DataFrame := ⟨[], []⟩

/-- pandas `df.empty`: true when the frame has no rows or no columns. -/
def DataFrame.pdEmpty (df : DataFrame) : Bool :=
  df.rows.isEmpty || df.columns.isEmpty

/-- `pd.concat([df, chunk])` for two frames sharing one schema (as the
loader's chunks of a single file do): the first frame's columns, and the
rows appended in order. -/
def DataFrame.concatRows (df chunk : DataFrame) : DataFrame :=
  ⟨df.columns, df.rows ++ chunk.rows⟩

/-- The state of `DataFrameModel`: the accumulated dataframe `df`, the
currently displayed slice `display_df`, the pre-scanned `total_rows`, the
cumulative `loaded_rows` and the window `offset`.  The offset is stored as
a `Nat`: every assignment in the source clamps it below by `0`. -/
structure DataFrameModel where
  df : DataFrame
  display_df : DataFrame
  total_rows : Int
  loaded_rows : Nat
  offset : Nat
deriving DecidableEq

/-- `DataFrameModel.__init__`. -/
def DataFrameModel.init : DataFrameModel :=
  ⟨DataFrame.emptyDF, DataFrame.emptyDF, 0, 0, 0⟩

/-- `DataFrameModel.update_display_data`: recompute `display_df` as
`df.iloc[offset:end_idx]` with `end_idx = min(offset + VISIBLE_ROWS, len(df))`,
but only when `offset < len(df)`; otherwise the previous display is kept. -/
def DataFrameModel.update_display_data (m : DataFrameModel) : DataFrameModel :=
  if m.offset < m.df.rows.length then
    { m with display_df :=
        ⟨m.df.columns,
         (m.df.rows.drop m.offset).take
           (min (m.offset + VISIBLE_ROWS) m.df.rows.length - m.offset)⟩ }
  else m

/-- `DataFrameModel.set_offset`: store
`max(0, min(offset, total_rows - VISIBLE_ROWS))` and refresh the display. -/
def DataFrameModel.set_offset (m : DataFrameModel) (r : Int) : DataFrameModel :=
  ({ m with offset := (max 0 (min r (m.total_rows - (VISIBLE_ROWS : Int)))).toNat
   } : DataFrameModel).update_display_data

/-- `DataFrameModel.set_total_rows`. -/
def DataFrameModel.set_total_rows (m : DataFrameModel) (n : Int) : DataFrameModel :=
  { m with total_rows := n }

/-- `DataFrameModel.update_chunk`: on the first chunk (`df.empty`) the frame
is replaced by the chunk; afterwards the chunk is concatenated; then the
display is refreshed. -/
def DataFrameModel.update_chunk (m : DataFrameModel) (chunk : DataFrame)
    (loaded : Nat) : DataFrameModel :=
  ({ m with
      df := if m.df.pdEmpty then chunk else m.df.concatRows chunk,
      loaded_rows := loaded } : DataFrameModel).update_display_data

/-! ### Helper lemmas about the display refresh -/

theorem update_display_data_offset (m : DataFrameModel) :
    m.update_display_data.offset = m.offset := by
  unfold DataFrameModel.update_display_data
  split <;> rfl

theorem update_display_data_df (m : DataFrameModel) :
    m.update_display_data.df = m.df := by
  unfold DataFrameModel.update_display_data
  split <;> rfl

theorem update_display_data_total (m : DataFrameModel) :
    m.update_display_data.total_rows = m.total_rows := by
  unfold DataFrameModel.update_display_data
  split <;> rfl

/-- Rows-level effect of `update_chunk`: under the reachable-state invariant
that a schema-less frame has no rows, and for a chunk with at least one
column, appending a chunk appends its rows and keeps a nonempty schema. -/
theorem update_chunk_rows (m : DataFrameModel) (c : DataFrame) (l : Nat)
    (hinv : m.df.columns = [] → m.df.rows = [])
    (hc : c.columns ≠ []) :
    (m.update_chunk c l).df.rows = m.df.rows ++ c.rows ∧
    (m.update_chunk c l).df.columns ≠ [] := by
  unfold DataFrameModel.update_chunk
  rw [update_display_data_df]
  by_cases h : m.df.pdEmpty
  · have hrows : m.df.rows = [] := by
      unfold DataFrame.pdEmpty at h
      rcases Bool.or_eq_true_iff.mp h with h1 | h1
      · exact List.isEmpty_iff.mp h1
      · exact hinv (List.isEmpty_iff.mp h1)
    simp [h, hrows, hc]
  · have hcols : ¬ m.df.columns.isEmpty := by
      unfold DataFrame.pdEmpty at h
      intro hco
      exact h (Bool.or_eq_true_iff.mpr (Or.inr hco))
    refine ⟨by simp [h, DataFrame.concatRows], ?_⟩
    intro hco
    simp [h, DataFrame.concatRows] at hco
    exact hcols (by simp [hco])

/-! ### C1 and C2: window computation and offset clamping -/

/-- A one-row model mid-load: one row of the eventual 1000 has arrived and is
displayed; `total_rows` was pre-scanned as 1000. -/
def mPartial : DataFrameModel :=
  ⟨⟨["c"], [[Value.textV "a"]]⟩, ⟨["c"], [[Value.textV "a"]]⟩, 1000, 1, 0⟩

/-- C1, counterexample to the claim as stated: at the valid offset 500
(`0 ≤ 500 ≤ max(0, 1000 − 100)`) the recomputed window is not the (empty)
slice of the dataset starting at row 500 — `update_display_data` leaves the
previous one-row display in place whenever `offset ≥ len(df)`. -/
theorem c1_counterexample :
    ((0 : Int) ≤ 500 ∧ (500 : Int) ≤ max 0 (mPartial.total_rows - (VISIBLE_ROWS : Int))) ∧
    (mPartial.set_offset 500).offset = 500 ∧
    (mPartial.set_offset 500).display_df.rows ≠
      (mPartial.df.rows.drop 500).take
        (min VISIBLE_ROWS (mPartial.df.rows.length - 500)) := by
  refine ⟨by decide, by decide, by decide⟩

/-- C1 (amended): for every offset `o` that points at loaded data
(`o < len(df)`), recomputing the display yields exactly the rows of the
dataset starting at index `o`, truncated to `min(W, len − o)` rows, carrying
the dataset's schema; for `o ≥ len(df)` the previous display is retained
unchanged.  Moreover appending a chunk with the dataset's schema to a
nonempty dataset never changes the schema, so the window's schema is fixed
for the whole load. -/
theorem c1_window_spec (m : DataFrameModel) (o : Nat) :
    (o < m.df.rows.length →
      (({ m with offset := o } : DataFrameModel).update_display_data.display_df.rows
          = (m.df.rows.drop o).take (min VISIBLE_ROWS (m.df.rows.length - o)) ∧
       ({ m with offset := o } : DataFrameModel).update_display_data.display_df.columns
          = m.df.columns ∧
       ({ m with offset := o } : DataFrameModel).update_display_data.display_df.rows.length
          = min VISIBLE_ROWS (m.df.rows.length - o))) ∧
    (m.df.rows.length ≤ o →
      ({ m with offset := o } : DataFrameModel).update_display_data
        = { m with offset := o }) ∧
    (∀ (c : DataFrame) (l : Nat), m.df.pdEmpty = false → c.columns = m.df.columns →
      (m.update_chunk c l).df.columns = m.df.columns) := by
  refine ⟨?_, ?_, ?_⟩
  · intro ho
    have harg : min (o + VISIBLE_ROWS) m.df.rows.length - o
        = min VISIBLE_ROWS (m.df.rows.length - o) := by omega
    unfold DataFrameModel.update_display_data
    rw [if_pos (by simpa using ho)]
    refine ⟨by simp [harg], rfl, ?_⟩
    simp only [harg, List.length_take, List.length_drop]
    omega
  · intro ho
    unfold DataFrameModel.update_display_data
    rw [if_neg (by simpa using Nat.not_lt.mpr ho)]
  · intro c l hne hcols
    unfold DataFrameModel.update_chunk
    rw [update_display_data_df]
    simp [hne, DataFrame.concatRows]

/-- Witness for `c1_window_spec` at `mPartial` and offset 0. -/
theorem c1_window_spec_witness :
    (({ mPartial with offset := 0 } : DataFrameModel).update_display_data.display_df.rows
        = (mPartial.df.rows.drop 0).take (min VISIBLE_ROWS (mPartial.df.rows.length - 0)) ∧
     ({ mPartial with offset := 0 } : DataFrameModel).update_display_data.display_df.columns
        = mPartial.df.columns ∧
     ({ mPartial with offset := 0 } : DataFrameModel).update_display_data.display_df.rows.length
        = min VISIBLE_ROWS (mPartial.df.rows.length - 0)) ∧
    (mPartial.update_chunk ⟨["c"], [[Value.textV "b"]]⟩ 2).df.columns
        = mPartial.df.columns :=
  ⟨(c1_window_spec mPartial 0).1 (by decide),
   (c1_window_spec mPartial 0).2.2 ⟨["c"], [[Value.textV "b"]]⟩ 2 (by decide) (by decide)⟩

/-- C2: `set_offset(r)` always stores `clamp(r, 0, max(0, total − W))`, and
the resulting state — window included — is exactly that of `set_offset`
applied to the already-clamped request. -/
theorem c2_set_offset_clamps (m : DataFrameModel) (r : Int) :
    ((m.set_offset r).offset : Int)
        = max 0 (min r (max 0 (m.total_rows - (VISIBLE_ROWS : Int)))) ∧
    m.set_offset r
        = m.set_offset (max 0 (min r (max 0 (m.total_rows - (VISIBLE_ROWS : Int))))) := by
  constructor
  · unfold DataFrameModel.set_offset
    rw [update_display_data_offset]
    dsimp only
    omega
  · unfold DataFrameModel.set_offset
    have h : (max 0 (min r (m.total_rows - (VISIBLE_ROWS : Int)))).toNat
        = (max 0 (min (max 0 (min r (max 0 (m.total_rows - (VISIBLE_ROWS : Int)))))
            (m.total_rows - (VISIBLE_ROWS : Int)))).toNat := by
      omega
    rw [h]

/-! ### Search: string rendering, predicate, scan and `search_data` -/

/-- Python `str()` of a float, modelled on the rational carried: the claims
only exercise integer-valued floats, rendered `"<n>.0"` as Python does. -/
def pyFloatStr (q : Rat) : String :=
  if q.den = 1 then toString q.num ++ ".0" else toString q

/-- pandas `astype(str)`, the rendering the search compares against.
Crucially, a missing value (`NaN`) renders as the three-letter string
`"nan"`, so the later `na=False` argument of `str.contains` never sees a
missing value. -/
def Value.astype_str : Value → String
  | .missing => "nan"
  | .intV i => toString i
  | .floatV q => pyFloatStr q
  | .textV s => s

/-- Substring containment on character lists. -/
def listContainsSub (pat : List Char) : List Char → Bool
  | [] => pat.isEmpty
  | c :: rest => pat.isPrefixOf (c :: rest) || listContainsSub pat rest

/-- Substring containment on strings. -/
def strContainsSub (hay pat : String) : Bool :=
  listContainsSub pat.data hay.data

/-- Python `.lower()`, character by character. -/
def strLower (s : String) : String :=
  String.mk (s.data.map Char.toLower)

/-- `str.contains(text, case=False)`: case-insensitive containment.  pandas
interprets `text` as a regular expression; for patterns free of regex
metacharacters — all that this development exercises — regex search
coincides with the literal substring containment modelled here. -/
def ciContains (hay pat : String) : Bool :=
  strContainsSub (strLower hay) (strLower pat)

/-- The search scope: the "All Columns" combo entry or one column index. -/
inductive SearchScope where
  | allColumns
  | oneColumn (idx : Nat)
deriving DecidableEq

/-- One cell against the query, as `astype(str).str.contains(text, case=False)`. -/
def cellMatches (text : String) (v : Value) : Bool :=
  ciContains v.astype_str text

/-- One row against the query: a single column tests just that cell, the
all-columns mode is the `|=`-accumulated OR over the columns. -/
def rowMatch (scope : SearchScope) (text : String) (row : List Value) : Bool :=
  match scope with
  | .allColumns => row.any (cellMatches text)
  | .oneColumn idx => cellMatches text (row.getD idx Value.missing)

/-- Indices of the mask's true rows (`df[mask].index`), counting from `i`. -/
def maskIndicesAux (q : List Value → Bool) : List (List Value) → Nat → List Nat
  | [], _ => []
  | r :: rest, i =>
    if q r then i :: maskIndicesAux q rest (i + 1) else maskIndicesAux q rest (i + 1)

/-- `result_indices` of `search_data`: the positions of the rows matching the
query under the given scope. -/
def searchIndices (df : DataFrame) (scope : SearchScope) (text : String) : List Nat :=
  maskIndicesAux (rowMatch scope text) df.rows 0

/-- The row scan with an explicitly fallible per-row predicate, reflecting
Python exception propagation: an exception raised while evaluating any row
escapes the whole scan (to be caught by `search_data`'s handler). -/
def searchScanAux (p : List Value → Except String Bool) :
    List (List Value) → Nat → Except String (List Nat)
  | [], _ => .ok []
  | r :: rest, i =>
    match p r with
    | .error e => .error e
    | .ok b =>
      match searchScanAux p rest (i + 1) with
      | .error e => .error e
      | .ok is => .ok (if b then i :: is else is)

/-- The full scan from index 0. -/
def searchScan (p : List Value → Except String Bool) (rows : List (List Value)) :
    Except String (List Nat) :=
  searchScanAux p rows 0

/-- The `try`/`except` body of `CSVReaderApp.search_data`: on a successful
scan with matches, reposition via `set_offset(max(0, first − 5))` and report
the match count; with no matches report so; a raised exception is caught and
reported as a search error, leaving the model untouched. -/
def search_core (m : DataFrameModel) (p : List Value → Except String Bool) :
    DataFrameModel × Option String :=
  match searchScan p m.df.rows with
  | .error e => (m, some ("Search error: " ++ e))
  | .ok [] => (m, some "No matches found")
  | .ok (i :: rest) =>
    (m.set_offset (max 0 ((i : Int) - 5)),
     some ("Found " ++ toString (i :: rest).length ++ " matches"))

/-- `CSVReaderApp.search_data`: early return (no state or status change) on
an empty query or an empty dataframe, otherwise the guarded scan. -/
def CSVReaderApp.search_data (m : DataFrameModel) (scope : SearchScope)
    (text : String) : DataFrameModel × Option String :=
  if text = "" ∨ m.df.pdEmpty = true then (m, none)
  else search_core m (fun row => Except.ok (rowMatch scope text row))

/-! ### Scan lemmas -/

theorem searchScanAux_pure (q : List Value → Bool) :
    ∀ (rows : List (List Value)) (i : Nat),
      searchScanAux (fun r => Except.ok (q r)) rows i
        = Except.ok (maskIndicesAux q rows i) := by
  intro rows
  induction rows with
  | nil => intro i; rfl
  | cons r rest ih =>
    intro i
    simp only [searchScanAux, maskIndicesAux, ih]

theorem maskIndicesAux_ge (q : List Value → Bool) :
    ∀ (rows : List (List Value)) (i j : Nat),
      j ∈ maskIndicesAux q rows i → i ≤ j := by
  intro rows
  induction rows with
  | nil => intro i j h; simp [maskIndicesAux] at h
  | cons r rest ih =>
    intro i j h
    simp only [maskIndicesAux] at h
    by_cases hq : q r
    · rw [if_pos hq] at h
      rcases List.mem_cons.mp h with h1 | h1
      · omega
      · have := ih (i + 1) j h1; omega
    · rw [if_neg hq] at h
      have := ih (i + 1) j h; omega

theorem maskIndicesAux_sorted (q : List Value → Bool) :
    ∀ (rows : List (List Value)) (i : Nat),
      List.Pairwise (· < ·) (maskIndicesAux q rows i) := by
  intro rows
  induction rows with
  | nil => intro i; simp [maskIndicesAux]
  | cons r rest ih =>
    intro i
    simp only [maskIndicesAux]
    by_cases hq : q r
    · rw [if_pos hq]
      refine List.pairwise_cons.mpr ⟨?_, ih (i + 1)⟩
      intro j hj
      have := maskIndicesAux_ge q rest (i + 1) j hj
      omega
    · rw [if_neg hq]
      exact ih (i + 1)

theorem maskIndicesAux_mem (q : List Value → Bool) :
    ∀ (rows : List (List Value)) (i j : Nat),
      j ∈ maskIndicesAux q rows i ↔
        ∃ k, k < rows.length ∧ j = i + k ∧ q (rows.getD k []) = true := by
  intro rows
  induction rows with
  | nil => intro i j; simp [maskIndicesAux]
  | cons r rest ih =>
    intro i j
    simp only [maskIndicesAux]
    constructor
    · intro h
      by_cases hq : q r
      · rw [if_pos hq] at h
        rcases List.mem_cons.mp h with h1 | h1
        · exact ⟨0, by simp, by omega, by simpa [h1] using hq⟩
        · rcases (ih (i + 1) j).mp h1 with ⟨k, hk, hj, hqk⟩
          exact ⟨k + 1, by simpa using hk, by omega, by simpa using hqk⟩
      · rw [if_neg hq] at h
        rcases (ih (i + 1) j).mp h with ⟨k, hk, hj, hqk⟩
        exact ⟨k + 1, by simpa using hk, by omega, by simpa using hqk⟩
    · rintro ⟨k, hk, hj, hqk⟩
      cases k with
      | zero =>
        simp only [List.getD_cons_zero] at hqk
        rw [if_pos hqk]
        exact List.mem_cons.mpr (Or.inl (by omega))
      | succ k2 =>
        have hmem : j ∈ maskIndicesAux q rest (i + 1) :=
          (ih (i + 1) j).mpr ⟨k2, by simpa using hk, by omega, by simpa using hqk⟩
        by_cases hq : q r
        · rw [if_pos hq]; exact List.mem_cons.mpr (Or.inr hmem)
        · rw [if_neg hq]; exact hmem

/-! ### C3, C4, C8, C9: search behavior -/

/-- C3: with a non-empty result `i :: rest`, the search returns the matching
row positions in ascending order — membership in the result is exactly
"position in range and row matches" — and the resulting state is
`set_offset(max(0, first − 5))` (then clamped inside `set_offset`), with the
match count reported. -/
theorem c3_search_reposition (m : DataFrameModel) (scope : SearchScope)
    (text : String) (htext : text ≠ "") (hne : m.df.pdEmpty = false)
    (i : Nat) (rest : List Nat)
    (hres : searchIndices m.df scope text = i :: rest) :
    List.Pairwise (· < ·) (searchIndices m.df scope text) ∧
    (∀ j, j ∈ searchIndices m.df scope text ↔
        j < m.df.rows.length ∧ rowMatch scope text (m.df.rows.getD j []) = true) ∧
    CSVReaderApp.search_data m scope text
      = (m.set_offset (max 0 ((i : Int) - 5)),
         some ("Found " ++ toString (i :: rest).length ++ " matches")) := by
  refine ⟨maskIndicesAux_sorted _ _ _, ?_, ?_⟩
  · intro j
    unfold searchIndices
    rw [maskIndicesAux_mem (rowMatch scope text) m.df.rows 0 j]
    constructor
    · rintro ⟨k, hk, hj, hq⟩
      have hjk : j = k := by omega
      rw [hjk]
      exact ⟨hk, hq⟩
    · rintro ⟨hj, hq⟩
      exact ⟨j, hj, by omega, hq⟩
  · unfold CSVReaderApp.search_data
    rw [if_neg (by
      rintro (h1 | h1)
      · exact htext h1
      · rw [hne] at h1; exact Bool.false_ne_true h1)]
    unfold search_core searchScan
    rw [searchScanAux_pure]
    have hres2 : maskIndicesAux (rowMatch scope text) m.df.rows 0 = i :: rest := hres
    rw [hres2]

/-- The 1000-row, 1-column dataset of the claim: the only match for
`"needle"` sits at row index 42. -/
def bigDf : DataFrame :=
  ⟨["c"],
   List.replicate 42 [Value.textV "xx"]
     ++ [Value.textV "needle"] :: List.replicate 957 [Value.textV "xx"]⟩

/-- The model after that dataset has fully loaded. -/
def bigModel : DataFrameModel := ⟨bigDf, DataFrame.emptyDF, 1000, 1000, 0⟩

/-- Witness for `c3_search_reposition`: the all-columns search for
`"needle"` over the 1000-row dataset returns `[42]` and repositions the
offset to 37. -/
theorem c3_search_reposition_witness :
    List.Pairwise (· < ·) (searchIndices bigModel.df SearchScope.allColumns "needle") ∧
    searchIndices bigModel.df SearchScope.allColumns "needle" = [42] ∧
    CSVReaderApp.search_data bigModel SearchScope.allColumns "needle"
      = (bigModel.set_offset (max 0 ((42 : Int) - 5)), some "Found 1 matches") ∧
    (bigModel.set_offset (max 0 ((42 : Int) - 5))).offset = 37 := by
  have hres : searchIndices bigModel.df SearchScope.allColumns "needle" = [42] := by
    decide
  have main := c3_search_reposition bigModel SearchScope.allColumns "needle"
      (by decide) (by decide) 42 [] hres
  exact ⟨main.1, hres, main.2.2, by decide⟩

/-- A model holding one row whose single field is missing. -/
def mMissing : DataFrameModel :=
  ⟨⟨["c"], [[Value.missing]]⟩, DataFrame.emptyDF, 1, 1, 0⟩

/-- C4: evaluation of the search at the failing input.  The query `"nan"`
matches a missing field: `astype(str)` renders `NaN` as the text `"nan"`
before `str.contains` ever sees it, so the `na=False` guard is dead and the
"missing fields never match" clause of the claim is violated by the code. -/
theorem c4_missing_matches_nan :
    cellMatches "nan" Value.missing = true ∧
    rowMatch SearchScope.allColumns "nan" [Value.missing] = true ∧
    searchIndices mMissing.df SearchScope.allColumns "nan" = [0] ∧
    (CSVReaderApp.search_data mMissing SearchScope.allColumns "nan").2
      = some "Found 1 matches" := by
  decide

/-- C8: a search that runs (non-empty query, non-empty dataframe) and finds
nothing leaves the model — offset and display window included — unchanged
and reports "No matches found". -/
theorem c8_no_matches (m : DataFrameModel) (scope : SearchScope) (text : String)
    (htext : text ≠ "") (hne : m.df.pdEmpty = false)
    (hres : searchIndices m.df scope text = []) :
    CSVReaderApp.search_data m scope text = (m, some "No matches found") := by
  unfold CSVReaderApp.search_data
  rw [if_neg (by
    rintro (h1 | h1)
    · exact htext h1
    · rw [hne] at h1; exact Bool.false_ne_true h1)]
  unfold search_core searchScan
  rw [searchScanAux_pure]
  have hres2 : maskIndicesAux (rowMatch scope text) m.df.rows 0 = [] := hres
  rw [hres2]

/-- A fully loaded single-row model with the text `"b"`. -/
def mOneRow : DataFrameModel :=
  ⟨⟨["c"], [[Value.textV "b"]]⟩, ⟨["c"], [[Value.textV "b"]]⟩, 1, 1, 0⟩

/-- Witness for `c8_no_matches`: searching `"zzz"` in the one-row model. -/
theorem c8_no_matches_witness :
    CSVReaderApp.search_data mOneRow SearchScope.allColumns "zzz"
      = (mOneRow, some "No matches found") :=
  c8_no_matches mOneRow SearchScope.allColumns "zzz" (by decide) (by decide)
    (by decide)

/-- An error at any row escapes the whole scan: if the predicate fails at
row `j` (rows before `j` evaluating normally), the scan returns that error,
whatever rows follow. -/
theorem searchScanAux_error (p : List Value → Except String Bool) (e : String) :
    ∀ (rows : List (List Value)) (j i : Nat),
      j < rows.length →
      p (rows.getD j []) = Except.error e →
      (∀ i2, i2 < j → ∃ b, p (rows.getD i2 []) = Except.ok b) →
      searchScanAux p rows i = Except.error e := by
  intro rows
  induction rows with
  | nil => intro j i hj _ _; simp at hj
  | cons r rest ih =>
    intro j i hj hfail hok
    cases j with
    | zero =>
      simp only [List.getD_cons_zero] at hfail
      simp [searchScanAux, hfail]
    | succ j2 =>
      obtain ⟨b, hb⟩ := hok 0 (Nat.succ_pos j2)
      simp only [List.getD_cons_zero] at hb
      have hrec : searchScanAux p rest (i + 1) = Except.error e := by
        apply ih j2 (i + 1) (by simpa using hj) (by simpa using hfail)
        intro i2 hi2
        simpa using hok (i2 + 1) (by omega)
      simp [searchScanAux, hb, hrec]

/-- C9 (amended): a failure while evaluating the match predicate on one row
aborts the entire search — the `except` handler reports a search-error
status, no matches are returned and the model (offset and window) is left
exactly as it was; rows after the failing one are never reflected in the
result. -/
theorem c9_scan_error_aborts (m : DataFrameModel)
    (p : List Value → Except String Bool) (j : Nat) (e : String)
    (hj : j < m.df.rows.length)
    (hfail : p (m.df.rows.getD j []) = Except.error e)
    (hok : ∀ i2, i2 < j → ∃ b, p (m.df.rows.getD i2 []) = Except.ok b) :
    searchScan p m.df.rows = Except.error e ∧
    search_core m p = (m, some ("Search error: " ++ e)) := by
  have hs : searchScan p m.df.rows = Except.error e :=
    searchScanAux_error p e m.df.rows j 0 hj hfail hok
  refine ⟨hs, ?_⟩
  unfold search_core
  rw [hs]

/-- A fully loaded two-row model: rows `"x"` then `"y"`. -/
def mTwoRows : DataFrameModel :=
  ⟨⟨["c"], [[Value.textV "x"], [Value.textV "y"]]⟩, DataFrame.emptyDF, 2, 2, 0⟩

/-- A per-row predicate that raises on the first row and matches the rest. -/
def pBoom : List Value → Except String Bool :=
  fun r => if r = [Value.textV "x"] then Except.error "boom" else Except.ok true

/-- C9, counterexample to the claim as stated: the predicate fails on row 0
while row 1 still matches; the claim demands the failing row be treated as
a non-match and the scan continue (which would return `[1]` and a found
status), but the code aborts the whole search with an error status and an
unchanged model. -/
theorem c9_counterexample :
    search_core mTwoRows pBoom = (mTwoRows, some "Search error: boom") ∧
    (search_core mTwoRows pBoom).2 ≠ some "Found 1 matches" ∧
    searchScan pBoom (mTwoRows.df.rows.drop 1) = Except.ok [0] := by
  exact ⟨rfl, by decide, rfl⟩

/-- Witness for `c9_scan_error_aborts` at `mTwoRows` and `pBoom`. -/
theorem c9_scan_error_aborts_witness :
    searchScan pBoom mTwoRows.df.rows = Except.error "boom" ∧
    search_core mTwoRows pBoom = (mTwoRows, some ("Search error: " ++ "boom")) :=
  c9_scan_error_aborts mTwoRows pBoom 0 "boom" (by decide) (by rfl)
    (fun i2 hi2 => absurd hi2 (Nat.not_lt_zero i2))

/-! ### Loader thread: events, progress, and failure (C5, C7) -/

/-- The signals `DataLoaderThread` emits: `progress_update`, `data_loaded`
and `error_occurred`. -/
inductive LoaderEvent where
  | progress (p : Nat)
  | dataLoaded (chunk : DataFrame) (loaded : Nat)
  | errorMsg (msg : String)
deriving DecidableEq

/-- `int((chunks_loaded / total_lines) * 100)`: truncation of the exact
ratio to an integer.  The source computes the ratio in double precision;
the model uses exact arithmetic, with which it agrees on the inputs
exercised here. -/
def pyProgress (loaded total_lines : Nat) : Nat :=
  100 * loaded / total_lines

/-- The chunk loop of `DataLoaderThread.run`.  The chunk stream is the
sequence `pd.read_csv(..., chunksize=...)` yields: a parsed chunk, or the
exception a malformed chunk raises.  Pulling an erroneous chunk jumps to
the `except` handler, which emits a single `error_occurred` and stops;
a cleared `is_running` flag (checked after the pull, argument `k` counts
processed chunks) breaks out and still emits the final `progress(100)`. -/
def DataLoaderThread.runAux (total_lines : Nat) (running : Nat → Bool) :
    List (Except String DataFrame) → Nat → Nat → List LoaderEvent
  | [], _, _ => [LoaderEvent.progress 100]
  | c :: rest, k, loaded =>
    match c with
    | .error e => [LoaderEvent.errorMsg e]
    | .ok chunk =>
      if running k then
        LoaderEvent.dataLoaded chunk (loaded + chunk.rows.length) ::
          LoaderEvent.progress (pyProgress (loaded + chunk.rows.length) total_lines) ::
            DataLoaderThread.runAux total_lines running rest (k + 1)
              (loaded + chunk.rows.length)
      else [LoaderEvent.progress 100]

/-- `DataLoaderThread.run`: the initial `progress_update.emit(0)` followed
by the chunk loop. -/
def DataLoaderThread.run (total_lines : Nat) (running : Nat → Bool)
    (chunks : List (Except String DataFrame)) : List LoaderEvent :=
  LoaderEvent.progress 0 ::
    DataLoaderThread.runAux total_lines running chunks 0 0

/-- The sequence of emitted progress percentages, in emission order. -/
def progressValues (evs : List LoaderEvent) : List Nat :=
  evs.filterMap fun e =>
    match e with
    | LoaderEvent.progress p => some p
    | _ => none

/-- Total number of rows across a list of chunks. -/
def totalRowsOf (gs : List DataFrame) : Nat :=
  (gs.map fun c => c.rows.length).sum

/-- The rows of a list of chunks, concatenated in order. -/
def okRows (gs : List DataFrame) : List (List Value) :=
  (gs.map DataFrame.rows).flatten

/-- Recognizer for the failure event. -/
def isErrorEvent : LoaderEvent → Bool
  | .errorMsg _ => true
  | _ => false

/-- The control context's reaction to the loader's event stream:
`data_loaded` is wired to `update_data`, which applies the chunk via
`update_chunk`; progress and error events do not mutate the model. -/
def applyEvents (m : DataFrameModel) : List LoaderEvent → DataFrameModel
  | [] => m
  | e :: rest =>
    match e with
    | .dataLoaded chunk loaded => applyEvents (m.update_chunk chunk loaded) rest
    | _ => applyEvents m rest

theorem progressValues_nil : progressValues [] = [] := rfl

theorem progressValues_progress (p : Nat) (rest : List LoaderEvent) :
    progressValues (LoaderEvent.progress p :: rest) = p :: progressValues rest := rfl

theorem progressValues_dataLoaded (c : DataFrame) (l : Nat) (rest : List LoaderEvent) :
    progressValues (LoaderEvent.dataLoaded c l :: rest) = progressValues rest := rfl

theorem totalRowsOf_cons (c : DataFrame) (gs : List DataFrame) :
    totalRowsOf (c :: gs) = c.rows.length + totalRowsOf gs := by
  simp [totalRowsOf]

/-- Every per-batch progress value is the truncated percentage of some
cumulative row count in range; only the terminal event is the literal 100. -/
theorem runAux_progress_mem (t : Nat) :
    ∀ (gs : List DataFrame) (k loaded : Nat),
      ∀ p ∈ progressValues
          (DataLoaderThread.runAux t (fun _ => true) (gs.map Except.ok) k loaded),
        (∃ c, loaded ≤ c ∧ c ≤ loaded + totalRowsOf gs ∧ p = pyProgress c t) ∨
          p = 100 := by
  intro gs
  induction gs with
  | nil =>
    intro k loaded p hp
    simp only [List.map_nil, DataLoaderThread.runAux, progressValues_progress,
      progressValues_nil] at hp
    right
    rcases List.mem_singleton.mp hp with h
    exact h
  | cons c gs ih =>
    intro k loaded p hp
    simp only [List.map_cons, DataLoaderThread.runAux, if_pos,
      progressValues_dataLoaded, progressValues_progress] at hp
    rcases List.mem_cons.mp hp with h1 | h1
    · left
      exact ⟨loaded + c.rows.length, by omega, by rw [totalRowsOf_cons]; omega, h1⟩
    · rcases ih (k + 1) (loaded + c.rows.length) p h1 with ⟨c2, h2, h3, h4⟩ | h2
      · left
        exact ⟨c2, by omega, by rw [totalRowsOf_cons]; omega, h4⟩
      · right
        exact h2

/-- Truncated percentages of non-decreasing cumulative counts are
non-decreasing and bounded by 100. -/
theorem runAux_progress_chain (t : Nat) (ht : 0 < t) :
    ∀ (gs : List DataFrame) (k loaded : Nat), loaded + totalRowsOf gs ≤ t →
      List.Chain' (· ≤ ·)
        (pyProgress loaded t ::
          progressValues
            (DataLoaderThread.runAux t (fun _ => true) (gs.map Except.ok) k loaded)) := by
  intro gs
  induction gs with
  | nil =>
    intro k loaded hle
    simp only [List.map_nil, DataLoaderThread.runAux, progressValues_progress,
      progressValues_nil]
    refine List.chain'_cons.mpr ⟨?_, List.chain'_singleton 100⟩
    unfold pyProgress
    calc 100 * loaded / t ≤ 100 * t / t :=
          Nat.div_le_div_right (Nat.mul_le_mul_left 100 (by simpa [totalRowsOf] using hle))
      _ = 100 := by rw [Nat.mul_div_cancel _ ht]
  | cons c gs ih =>
    intro k loaded hle
    rw [totalRowsOf_cons] at hle
    simp only [List.map_cons, DataLoaderThread.runAux, if_pos,
      progressValues_dataLoaded, progressValues_progress]
    refine List.chain'_cons.mpr ⟨?_, ih (k + 1) (loaded + c.rows.length) (by omega)⟩
    exact Nat.div_le_div_right (Nat.mul_le_mul_left 100 (by omega))

/-- The event stream of an uncancelled, error-free run ends in a
progress event, whose value is the literal 100. -/
theorem runAux_progress_last (t : Nat) :
    ∀ (gs : List DataFrame) (k loaded : Nat),
      ∃ l, progressValues
          (DataLoaderThread.runAux t (fun _ => true) (gs.map Except.ok) k loaded)
        = l ++ [100] := by
  intro gs
  induction gs with
  | nil =>
    intro k loaded
    exact ⟨[], rfl⟩
  | cons c gs ih =>
    intro k loaded
    obtain ⟨l, hl⟩ := ih (k + 1) (loaded + c.rows.length)
    refine ⟨pyProgress (loaded + c.rows.length) t :: l, ?_⟩
    simp only [List.map_cons, DataLoaderThread.runAux, if_pos,
      progressValues_dataLoaded, progressValues_progress, hl, List.cons_append]

/-- C5 (amended): in a load that completes normally (no parse error, never
cancelled, a positive pre-scanned line count bounding the row count), every
emitted progress value is `⌊100 · cumulative / total_lines⌋` for some
cumulative row count — truncation, not rounding — except the explicit final
100; the sequence is monotonically non-decreasing; and the final emitted
progress equals 100. -/
theorem c5_progress_floor (t : Nat) (good : List DataFrame) (ht : 0 < t)
    (hsum : totalRowsOf good ≤ t) :
    (∀ p ∈ progressValues (DataLoaderThread.run t (fun _ => true) (good.map Except.ok)),
        (∃ c, c ≤ totalRowsOf good ∧ p = pyProgress c t) ∨ p = 100) ∧
    List.Chain' (· ≤ ·)
      (progressValues (DataLoaderThread.run t (fun _ => true) (good.map Except.ok))) ∧
    (progressValues (DataLoaderThread.run t (fun _ => true) (good.map Except.ok))).getLast?
      = some 100 := by
  refine ⟨?_, ?_, ?_⟩
  · intro p hp
    simp only [DataLoaderThread.run, progressValues_progress] at hp
    rcases List.mem_cons.mp hp with h1 | h1
    · left
      exact ⟨0, by omega, by simp [pyProgress, h1]⟩
    · rcases runAux_progress_mem t good 0 0 p h1 with ⟨c, h2, h3, h4⟩ | h2
      · left
        exact ⟨c, by omega, h4⟩
      · right
        exact h2
  · simp only [DataLoaderThread.run, progressValues_progress]
    have h0 : (0 : Nat) = pyProgress 0 t := by simp [pyProgress]
    nth_rewrite 1 [h0]
    exact runAux_progress_chain t ht good 0 0 (by omega)
  · simp only [DataLoaderThread.run, progressValues_progress]
    obtain ⟨l, hl⟩ := runAux_progress_last t good 0 0
    rw [hl, show (0 : Nat) :: (l ++ [100]) = (0 :: l) ++ [100] from rfl]
    exact List.getLast?_concat _

/-- A two-row chunk. -/
def chunk2 : DataFrame := ⟨["c"], [[Value.intV 1], [Value.intV 2]]⟩

/-- C5, counterexample to the claim as stated: loading 2 rows of a 3-line
file emits the progress value `int((2/3)*100) = 66`, whereas
`round(100 × 2/3) = 67` — the code truncates, it does not round. -/
theorem c5_counterexample :
    progressValues (DataLoaderThread.run 3 (fun _ => true) [Except.ok chunk2])
      = [0, 66, 100] ∧
    ¬ ((66 : Int) = round ((100 * (2 : Rat)) / 3)) := by
  constructor
  · rfl
  · intro h
    rw [show (100 * (2 : Rat)) / 3 = (200 : Rat) / 3 by norm_num, round_eq] at h
    norm_num at h

/-- Witness for `c5_progress_floor`: one two-row chunk of a three-line file. -/
theorem c5_progress_floor_witness :
    (∀ p ∈ progressValues (DataLoaderThread.run 3 (fun _ => true) ([chunk2].map Except.ok)),
        (∃ c, c ≤ totalRowsOf [chunk2] ∧ p = pyProgress c 3) ∨ p = 100) ∧
    List.Chain' (· ≤ ·)
      (progressValues (DataLoaderThread.run 3 (fun _ => true) ([chunk2].map Except.ok))) ∧
    (progressValues (DataLoaderThread.run 3 (fun _ => true) ([chunk2].map Except.ok))).getLast?
      = some 100 :=
  c5_progress_floor 3 [chunk2] (by decide) (by decide)

theorem okRows_cons (c : DataFrame) (gs : List DataFrame) :
    okRows (c :: gs) = c.rows ++ okRows gs := by
  simp [okRows]

/-- Shape of a failing run's tail: the events before the single terminal
`error_occurred` contain no error event, and nothing follows it. -/
theorem runAux_error_shape (t : Nat) (msg : String)
    (rest : List (Except String DataFrame)) :
    ∀ (gs : List DataFrame) (k loaded : Nat),
      ∃ pre,
        DataLoaderThread.runAux t (fun _ => true)
            (gs.map Except.ok ++ Except.error msg :: rest) k loaded
          = pre ++ [LoaderEvent.errorMsg msg] ∧
        pre.filter isErrorEvent = [] := by
  intro gs
  induction gs with
  | nil =>
    intro k loaded
    exact ⟨[], rfl, rfl⟩
  | cons c gs ih =>
    intro k loaded
    obtain ⟨pre, hpre, hfil⟩ := ih (k + 1) (loaded + c.rows.length)
    refine ⟨LoaderEvent.dataLoaded c (loaded + c.rows.length) ::
        LoaderEvent.progress (pyProgress (loaded + c.rows.length) t) :: pre, ?_, ?_⟩
    · simp only [List.cons_append, List.map_cons, DataLoaderThread.runAux, if_pos,
        List.append_eq, hpre]
    · simp [List.filter, isErrorEvent, hfil]

/-- Dataset contents after a failing run: exactly the rows of the chunks
applied before the failure, in order. -/
theorem applyEvents_error_rows (t : Nat) (msg : String)
    (rest : List (Except String DataFrame)) :
    ∀ (gs : List DataFrame) (k loaded : Nat) (m : DataFrameModel),
      (m.df.columns = [] → m.df.rows = []) →
      (∀ c ∈ gs, c.columns ≠ []) →
      (applyEvents m (DataLoaderThread.runAux t (fun _ => true)
          (gs.map Except.ok ++ Except.error msg :: rest) k loaded)).df.rows
        = m.df.rows ++ okRows gs := by
  intro gs
  induction gs with
  | nil =>
    intro k loaded m _ _
    simp [DataLoaderThread.runAux, applyEvents, okRows]
  | cons c gs ih =>
    intro k loaded m hinv hcols
    have hc : c.columns ≠ [] := hcols c (List.mem_cons_self c gs)
    obtain ⟨hrows, hcols2⟩ :=
      update_chunk_rows m c (loaded + c.rows.length) hinv hc
    simp only [List.map_cons, List.cons_append, DataLoaderThread.runAux, if_pos,
      List.append_eq, applyEvents]
    rw [ih (k + 1) (loaded + c.rows.length) (m.update_chunk c (loaded + c.rows.length))
        (fun h => absurd h hcols2) (fun c2 hc2 => hcols c2 (List.mem_cons_of_mem c hc2))]
    rw [hrows, okRows_cons, List.append_assoc]

/-- C7: a malformed chunk aborts the load — the failure event is emitted
exactly once and is the last event of the run, and the dataset ends up
holding exactly the rows of the chunks applied before the failure, in
order.  (`good` are the chunks parsed before the malformed one; chunks of a
real load carry at least one column.) -/
theorem c7_parse_failure_aborts (t : Nat) (good : List DataFrame) (msg : String)
    (rest : List (Except String DataFrame))
    (hcols : ∀ c ∈ good, c.columns ≠ []) :
    (DataLoaderThread.run t (fun _ => true)
        (good.map Except.ok ++ Except.error msg :: rest)).getLast?
      = some (LoaderEvent.errorMsg msg) ∧
    (DataLoaderThread.run t (fun _ => true)
        (good.map Except.ok ++ Except.error msg :: rest)).filter isErrorEvent
      = [LoaderEvent.errorMsg msg] ∧
    (applyEvents DataFrameModel.init
        (DataLoaderThread.run t (fun _ => true)
          (good.map Except.ok ++ Except.error msg :: rest))).df.rows
      = okRows good := by
  obtain ⟨pre, hpre, hfil⟩ := runAux_error_shape t msg rest good 0 0
  refine ⟨?_, ?_, ?_⟩
  · simp only [DataLoaderThread.run, hpre,
      show LoaderEvent.progress 0 :: (pre ++ [LoaderEvent.errorMsg msg])
          = (LoaderEvent.progress 0 :: pre) ++ [LoaderEvent.errorMsg msg] from rfl]
    exact List.getLast?_concat _
  · simp only [DataLoaderThread.run, hpre]
    simp [List.filter, isErrorEvent, List.filter_append, hfil]
  · simp only [DataLoaderThread.run, applyEvents]
    rw [applyEvents_error_rows t msg rest good 0 0 DataFrameModel.init
        (fun _ => rfl) hcols]
    rfl

/-- Witness for `c7_parse_failure_aborts`: one good two-row chunk followed
by a malformed one. -/
theorem c7_parse_failure_aborts_witness :
    (DataLoaderThread.run 10 (fun _ => true)
        ([chunk2].map Except.ok ++ Except.error "bad" :: [])).getLast?
      = some (LoaderEvent.errorMsg "bad") ∧
    (DataLoaderThread.run 10 (fun _ => true)
        ([chunk2].map Except.ok ++ Except.error "bad" :: [])).filter isErrorEvent
      = [LoaderEvent.errorMsg "bad"] ∧
    (applyEvents DataFrameModel.init
        (DataLoaderThread.run 10 (fun _ => true)
          ([chunk2].map Except.ok ++ Except.error "bad" :: []))).df.rows
      = okRows [chunk2] :=
  c7_parse_failure_aborts 10 [chunk2] "bad" [] (by decide)

/-! ### Scroll mapper: debounced offset requests (C6) -/

/-- A raw scrollbar change: arrival time (abstract units) and position. -/
structure ScrollEvent where
  time : Nat
  pos : Nat
deriving DecidableEq

/-- `update_model_from_scroll`'s mapping:
`int(visible_ratio * (total_rows - VISIBLE_ROWS))` with
`visible_ratio = value / max_scroll`.  Python's `int(...)` truncates toward
zero, which on the exact quotient is `Int.tdiv`; the source computes the
ratio in double precision, with which this exact model agrees on the inputs
exercised here. -/
def scrollOffsetOf (total_rows : Int) (max_scroll value : Nat) : Int :=
  Int.tdiv ((value : Int) * (total_rows - (VISIBLE_ROWS : Int))) (max_scroll : Int)

/-- The single-shot 50-unit `QTimer` debounce of `handle_scroll`, run over a
time-sorted event list: each event records its position in
`current_scroll_value` and restarts the timer; the timer fires (delivering
the stored position) only when the next event arrives at or after the
pending deadline, or when no further event arrives at all. -/
def debounceRun (delay : Nat) :
    List ScrollEvent → Nat → Option Nat → List Nat
  | [], cur, pending =>
    match pending with
    | some _ => [cur]
    | none => []
  | e :: rest, cur, pending =>
    match pending with
    | some deadline =>
      if deadline ≤ e.time then
        cur :: debounceRun delay rest e.pos (some (e.time + delay))
      else
        debounceRun delay rest e.pos (some (e.time + delay))
    | none => debounceRun delay rest e.pos (some (e.time + delay))

/-- The positions delivered by timer fires for a whole event sequence. -/
def deliveredPositions (events : List ScrollEvent) : List Nat :=
  debounceRun 50 events 0 none

/-- The offset requests `scroll_position_changed.emit` delivers to the
store: each fired position is mapped through `scrollOffsetOf`, guarded by
`total_rows > 0` and `max_scroll > 0` exactly as in
`update_model_from_scroll`. -/
def deliveredOffsets (total_rows : Int) (max_scroll : Nat)
    (events : List ScrollEvent) : List Int :=
  if 0 < total_rows ∧ 0 < max_scroll then
    (deliveredPositions events).map (scrollOffsetOf total_rows max_scroll)
  else []

/-- While every gap stays below the delay, no pending timer fires and only
the last position survives. -/
theorem debounceRun_burst (delay : Nat) :
    ∀ (es : List ScrollEvent) (a : ScrollEvent),
      List.Chain (fun x y => y.time < x.time + delay) a es →
      debounceRun delay es a.pos (some (a.time + delay)) = [(es.getLastD a).pos] := by
  intro es
  induction es with
  | nil => intro a _; rfl
  | cons e rest ih =>
    intro a hchain
    rcases List.chain_cons.mp hchain with ⟨hlt, hchain2⟩
    simp only [debounceRun, if_neg (by omega : ¬ a.time + delay ≤ e.time)]
    rw [ih e hchain2, List.getLastD_cons]

/-- C6 (amended): a burst of `N ≥ 1` raw scroll changes, consecutive ones
arriving strictly less than the 50-unit debounce delay apart, delivers
exactly one offset request to the store — the mapping of the *last* raw
change — and its value is the truncation (not the rounding) of
`(position / max_position) × (total − W)`; all earlier pending requests of
the burst are superseded. -/
theorem c6_debounce (total_rows : Int) (max_scroll : Nat)
    (e : ScrollEvent) (es : List ScrollEvent)
    (hburst : List.Chain (fun x y => y.time < x.time + 50) e es)
    (ht : 0 < total_rows) (hm : 0 < max_scroll) :
    deliveredOffsets total_rows max_scroll (e :: es)
      = [scrollOffsetOf total_rows max_scroll ((e :: es).getLastD e).pos] := by
  unfold deliveredOffsets
  rw [if_pos ⟨ht, hm⟩]
  unfold deliveredPositions
  simp only [debounceRun]
  rw [debounceRun_burst 50 es e hburst, List.getLastD_cons]
  rfl

/-- Witness for `c6_debounce`: two changes 10 units apart (10 < 50); only
the second position (7 of 10, over 1000 total rows) is delivered. -/
theorem c6_debounce_witness :
    deliveredOffsets 1000 10 [⟨0, 5⟩, ⟨10, 7⟩]
      = [scrollOffsetOf 1000 10 (([⟨0, 5⟩, ⟨10, 7⟩] : List ScrollEvent).getLastD ⟨0, 5⟩).pos] :=
  c6_debounce 1000 10 ⟨0, 5⟩ [⟨10, 7⟩]
    (List.Chain.cons (by decide) List.Chain.nil) (by decide) (by decide)

/-- C6, counterexample to the claim as stated: a single change at position
1 of 2 with 103 total rows maps to `int(0.5 × 3) = 1` (all values exact in
double precision), while `round(0.5 × 3) = 2` — the code truncates, it does
not round. -/
theorem c6_counterexample :
    deliveredOffsets 103 2 [⟨0, 1⟩] = [1] ∧
    ¬ ((1 : Int) = round (((1 : Rat) / 2) * ((103 : Rat) - 100))) := by
  constructor
  · rfl
  · intro h
    rw [show ((1 : Rat) / 2) * ((103 : Rat) - 100) = (3 : Rat) / 2 by norm_num,
      round_eq] at h
    norm_num at h

/-! ### Display formatting (C10) -/

/-- The decimal digit character of `n mod 10`. -/
def natDigit (n : Nat) : Char := Nat.digitChar (n % 10)

/-- The six-digit, zero-padded decimal rendering of `n mod 10^6`. -/
def frac6 (n : Nat) : String :=
  String.mk [natDigit (n / 100000), natDigit (n / 10000), natDigit (n / 1000),
    natDigit (n / 100), natDigit (n / 10), natDigit n]

/-- Python `f"{value:.6f}"` modelled at rationals: sign, integer part, a
dot, and the six decimal digits of the value rounded at the sixth
fractional place. -/
def fmt6 (q : Rat) : String :=
  (if q < 0 then "-" else "")
    ++ toString (round (|q| * 1000000) / 1000000)
    ++ "." ++ frac6 (round (|q| * 1000000) % 1000000).toNat

/-- The `DisplayRole` branch of `DataFrameModel.data`: `pd.isna(value)`
renders empty; a `float`/`np.float64` renders via `f"{value:.6f}"`; every
other value (integers included) renders via `str(value)`. -/
def display_str : Value → String
  | .missing => ""
  | .floatV q => fmt6 q
  | .intV i => toString i
  | .textV s => s

theorem natDigit_isDigit (n : Nat) : (natDigit n).isDigit = true := by
  unfold natDigit
  have h : n % 10 < 10 := Nat.mod_lt n (by omega)
  set k := n % 10 with hk
  interval_cases k <;> decide

theorem frac6_length (n : Nat) : (frac6 n).length = 6 := rfl

theorem frac6_digits (n : Nat) : ∀ c ∈ (frac6 n).data, c.isDigit = true := by
  intro c hc
  have hdata : (frac6 n).data
      = [natDigit (n / 100000), natDigit (n / 10000), natDigit (n / 1000),
         natDigit (n / 100), natDigit (n / 10), natDigit n] := rfl
  rw [hdata] at hc
  simp only [List.mem_cons, List.not_mem_nil, or_false] at hc
  rcases hc with h | h | h | h | h | h <;> (rw [h]; exact natDigit_isDigit _)

/-- C10 (amended): at the presentation boundary a missing value renders as
the empty string; a floating-point value renders as sign, integer part and
exactly six decimal digits after the dot; integer values and all other
values render via their natural text form (`str`), with no fractional
digits added. -/
theorem c10_formatting :
    display_str Value.missing = "" ∧
    (∀ q : Rat,
        display_str (Value.floatV q)
          = (if q < 0 then "-" else "")
              ++ toString (round (|q| * 1000000) / 1000000)
              ++ "." ++ frac6 (round (|q| * 1000000) % 1000000).toNat ∧
        (frac6 (round (|q| * 1000000) % 1000000).toNat).length = 6 ∧
        ∀ c ∈ (frac6 (round (|q| * 1000000) % 1000000).toNat).data,
          c.isDigit = true) ∧
    (∀ i : Int, display_str (Value.intV i) = toString i) ∧
    (∀ s : String, display_str (Value.textV s) = s) := by
  refine ⟨rfl, ?_, fun i => rfl, fun s => rfl⟩
  intro q
  exact ⟨rfl, frac6_length _, frac6_digits _⟩

/-- C10, counterexample to the claim as stated: the integer value 42 — a
numeric value — renders as `"42"` via `str`, not with six fractional
digits (`"42.000000"`, as `fmt6` would give); indeed its rendering contains
no dot at all. -/
theorem c10_counterexample :
    display_str (Value.intV 42) = "42" ∧
    fmt6 ((42 : Int) : Rat) = "42.000000" ∧
    display_str (Value.intV 42) ≠ fmt6 ((42 : Int) : Rat) ∧
    (display_str (Value.intV 42)).data.all (fun c => c ≠ '.') = true := by
  have h2 : fmt6 ((42 : Int) : Rat) = "42.000000" := by
    unfold fmt6
    norm_num
    decide
  refine ⟨rfl, h2, ?_, by decide⟩
  rw [h2]
  decide

/-- Witness for `c10_formatting`: the missing-value case, and the digit
property applied at the float 1/2 (whose fractional rendering is
`"500000"`) and the character `'5'`. -/
theorem c10_formatting_witness :
    display_str Value.missing = "" ∧ Char.isDigit '5' = true :=
  ⟨c10_formatting.1,
   (c10_formatting.2.1 ((1 : Rat) / 2)).2.2 '5' (by
      have h : |((1 : Rat) / 2)| * 1000000 = ((500000 : Int) : Rat) := by
        rw [abs_of_nonneg (by norm_num : (0 : Rat) ≤ 1 / 2)]
        norm_num
      rw [h, round_intCast]
      decide)⟩
